import Mathlib

/-!
Verification of the eve-pi production solver core: a shallow embedding of
`item.rs`, `system.rs` and `solver.rs` (the item catalog, the closure engine
`Solver::solve_cycles` / `Solver::solve_cycle`, the factory subset search in
`Solver::solve`, and the configuration resolution in `Builder::build`),
together with proofs and refutations of the specified properties.

Modelling conventions:
- Rust `HashSet<&Item>` / `HashSet<Item>` values become `Finset String` of item
  ids: the source defines `Hash`/`PartialEq`/`Eq` for `Item` by id alone
  (item.rs, lines 21-33), so a set of items is exactly a set of ids.
- `usize`/`u16` become `Nat`; the one place the source can underflow
  (`Builder::build`, `max_planets - 1`) is modeled as an explicit failure.
- Fallible code and panics become `Option`: `none` is an error return or a
  panic (`unwrap` of `None`), `some` a normal result.
- File IO and YAML parsing (`serde_yaml`, `fs::read_to_string`) are external
  collaborators and are not modeled; `ItemManager.new` starts from the already
  deserialized list of raw items.
-/

namespace EvePI

/-- Production tier, mirroring `enum Tier` in main.rs: R0 < P1 < P2 < P3 < P4
(the derived `Ord` is declaration order). -/
inductive Tier
  | R0
  | P1
  | P2
  | P3
  | P4
deriving DecidableEq, Repr

/-- Numeric rank of a tier, realizing the derived `Ord` of `enum Tier`. -/
def Tier.rank : Tier → Nat
  | .R0 => 0
  | .P1 => 1
  | .P2 => 2
  | .P3 => 3
  | .P4 => 4

instance : LE Tier := ⟨fun a b => a.rank ≤ b.rank⟩

instance : LT Tier := ⟨fun a b => a.rank < b.rank⟩

instance (a b : Tier) : Decidable (a ≤ b) := inferInstanceAs (Decidable (a.rank ≤ b.rank))

instance (a b : Tier) : Decidable (a < b) := inferInstanceAs (Decidable (a.rank < b.rank))

theorem Tier.le_def {a b : Tier} : a ≤ b ↔ a.rank ≤ b.rank := Iff.rfl

theorem Tier.lt_def {a b : Tier} : a < b ↔ a.rank < b.rank := Iff.rfl

theorem Tier.le_of_lt {a b : Tier} (h : a < b) : a ≤ b := Nat.le_of_lt h

theorem Tier.le_trans {a b c : Tier} (h1 : a ≤ b) (h2 : b ≤ c) : a ≤ c := Nat.le_trans h1 h2

/-- `RawProduction` (item.rs, lines 198-202). The `HashMap<String, u16>` of
inputs becomes an association list of (input item id, amount). -/
structure RawProduction where
  quantity : Nat
  inputs : List (String × Nat)
deriving DecidableEq, Repr

/-- `RawItem` (item.rs, lines 187-196), after `ItemManager::new`'s fixup loop
has copied the map key into the `id` field. -/
structure RawItem where
  id : String
  label : String
  tier : Tier
  production : Option RawProduction
  is_p4_input : Bool
deriving DecidableEq, Repr

/-- Resolved recipe input (`Input`, item.rs, lines 118-122). The source stores
a full `Item`, but `Item` equality and hashing are by id alone, and the solver
only ever compares inputs by id (`can_be_made_using`), so the embedding keeps
the id. -/
structure Input where
  item_id : String
  amount : Nat
deriving DecidableEq, Repr

/-- Resolved `Production` (item.rs, lines 81-85). -/
structure Production where
  quantity : Nat
  inputs : List Input
deriving DecidableEq, Repr

/-- Resolved `Item` (item.rs, lines 12-19). -/
structure Item where
  id : String
  label : String
  tier : Tier
  is_p4_input : Bool
  production : Option Production
deriving DecidableEq, Repr

/-- `ItemManager` (item.rs, lines 127-131). The source keeps a
`HashMap<String, RawItem>` plus the derived `used_in` reverse index; the
embedding keeps the list of raw items (each carrying its id) and derives the
reverse index by need with `ItemManager.usedIn` below, which reproduces
exactly the entries `ItemManager::new` inserts. -/
structure ItemManager where
  items : List RawItem
deriving DecidableEq, Repr

/-- `ItemManager::new` (item.rs, lines 134-164) minus file IO and YAML
deserialization (external collaborators). After parsing, the source only
copies map keys into `id` fields and builds the `used_in` index; it performs
no validation of recipe input ids, so construction always succeeds on any
deserialized item list. -/
def ItemManager.new (items : List RawItem) : ItemManager := ⟨items⟩

/-- Lookup of a raw item by id (the `self.items.get(...)` part of
`ItemManager::get`, item.rs, line 170). The source map has unique keys; the
embedding takes the first list entry with the id. -/
def ItemManager.findRaw (m : ItemManager) (item_id : String) : Option RawItem :=
  m.items.find? (fun it => it.id == item_id)

/-- Input resolution loop of `Production::from_raw` (item.rs, lines 92-103):
each input id is looked up in the catalog; a missing id is
`Err(Error::MissingItem)`, modeled as `none`. -/
def resolveInputs (m : ItemManager) : List (String × Nat) → Option (List Input)
  | [] => some []
  | (item_id, amount) :: rest =>
    match m.findRaw item_id, resolveInputs m rest with
    | some _, some inputs => some ({ item_id := item_id, amount := amount } :: inputs)
    | _, _ => none

/-- `Production::from_raw` (item.rs, lines 88-109). -/
def Production.from_raw (m : ItemManager) (raw : RawProduction) : Option Production :=
  (resolveInputs m raw.inputs).map (fun inputs => { quantity := raw.quantity, inputs := inputs })

/-- `Item::from_raw` (item.rs, lines 48-60): fails exactly when the item's
production recipe names an input id absent from the catalog. -/
def Item.from_raw (m : ItemManager) (raw : RawItem) : Option Item :=
  match raw.production with
  | none => some { id := raw.id, label := raw.label, tier := raw.tier, is_p4_input := raw.is_p4_input, production := none }
  | some rp =>
    (Production.from_raw m rp).map (fun p =>
      { id := raw.id, label := raw.label, tier := raw.tier, is_p4_input := raw.is_p4_input, production := some p })

/-- `ItemManager::get` (item.rs, lines 166-176): `None` both for an unknown id
and for a resolution failure (the source's `.ok()`). -/
def ItemManager.get (m : ItemManager) (item_id : String) : Option Item :=
  match m.findRaw item_id with
  | none => none
  | some raw => Item.from_raw m raw

/-- Whether `it`'s raw production lists `input_id` among its inputs: exactly
the condition under which `ItemManager::new` (item.rs, lines 144-151) adds
`it.id` to `used_in[input_id]`. -/
def RawItem.consumes (it : RawItem) (input_id : String) : Bool :=
  match it.production with
  | some p => p.inputs.any (fun inp => inp.1 == input_id)
  | none => false

/-- The `used_in` reverse-index entry for `item_id`, as the list of consumer
ids (item.rs, lines 139-151). -/
def ItemManager.usedIn (m : ItemManager) (item_id : String) : List String :=
  (m.items.filter (fun it => it.consumes item_id)).map (fun it => it.id)

/-- The `products.iter().map(|id| self.get(id).unwrap()).collect()` loop of
`ItemManager::get_products` (item.rs, line 183); a failing `unwrap` (panic)
is `none`. -/
def resolveAll (m : ItemManager) : List String → Option (List Item)
  | [] => some []
  | id :: rest =>
    match m.get id, resolveAll m rest with
    | some item, some items => some (item :: items)
    | _, _ => none

/-- `ItemManager::get_products` (item.rs, lines 178-185). The source returns
`None` when `used_in` has no entry for the id and every caller applies
`unwrap_or_default`; here that case is `some []` (an empty `usedIn` list).
`none` is the panic of `self.get(id).unwrap()` on an unresolvable consumer. -/
def ItemManager.get_products (m : ItemManager) (item_id : String) : Option (List Item) :=
  resolveAll m (m.usedIn item_id)

/-- `Production::can_be_made_using` (item.rs, lines 111-116): membership of
each recipe input in the available set, by item id. -/
def Production.can_be_made_using (p : Production) (possible_inputs : Finset String) : Bool :=
  p.inputs.all (fun input => decide (input.item_id ∈ possible_inputs))

/-- The consumer ids examined by one run of `Solver::solve_cycle` (solver.rs,
lines 168-169): ids reached through the `used_in` reverse index from some
member of `inputs`. -/
def cycleCandidates (m : ItemManager) (inputs : Finset String) : List String :=
  (m.items.filter (fun it => decide (∃ inp ∈ inputs, it.consumes inp = true))).map (fun it => it.id)

/-- The output set of one `Solver::solve_cycle` run (solver.rs, lines
160-191), assuming no lookup panicked: each candidate consumer is resolved
through `ItemManager::get`, skipped when its tier exceeds `max_tier` (line
170), and inserted when its full recipe is satisfied by `inputs` (line 180).
The `production.as_ref().unwrap()` at line 178 cannot fail for a consumer
(the source comments this); a production-less resolved item contributes
nothing, matching that comment. -/
def cycleOutputs (m : ItemManager) (inputs : Finset String) (max_tier : Tier) : Finset String :=
  ((cycleCandidates m inputs).filter (fun id =>
    match m.get id with
    | some product =>
      decide (product.tier ≤ max_tier) &&
        (match product.production with
         | some production => production.can_be_made_using inputs
         | none => false)
    | none => false)).toFinset

/-- Whether iterating `Solver::solve_cycle`'s outer loop over `inputs` hits
the `get(id).unwrap()` panic inside `ItemManager::get_products`. The panic is
hit as soon as some available input has a consumer whose recipe fails to
resolve, before any tier or recipe check. -/
def cyclePanics (m : ItemManager) (inputs : Finset String) : Bool :=
  decide (∃ inp ∈ inputs, m.get_products inp = none)

/-- `Solver::solve_cycle` (solver.rs, lines 160-191): `none` models the panic
path, otherwise the set of producible consumer ids. -/
def solve_cycle (m : ItemManager) (inputs : Finset String) (max_tier : Tier) : Option (Finset String) :=
  if cyclePanics m inputs then none else some (cycleOutputs m inputs max_tier)

/-- Tier of an output item as the solver reads it (`output.tier` at solver.rs
line 143, on the item resolved by `get_products`): looked up through the
catalog; the `R0` fallback is never reached for solver outputs. -/
def ItemManager.tierOf (m : ItemManager) (id : String) : Tier :=
  match m.get id with
  | some item => item.tier
  | none => Tier.R0

/-- The tier admission test of `Solver::solve_cycles` (solver.rs, line 143):
`output.tier > Tier::R0 && output.tier <= max_tier`. -/
def filterAllowed (m : ItemManager) (max_tier : Tier) (outputs : Finset String) : Finset String :=
  outputs.filter (fun id => Tier.R0 < m.tierOf id ∧ m.tierOf id ≤ max_tier)

/-- The `loop` of `Solver::solve_cycles` (solver.rs, lines 139-155) from its
second iteration on, with the cycle computation moved from the end of one
iteration to the start of the next (same dataflow): compute the next cycle
over the accumulated `products`, admit tier-allowed outputs, and stop when
nothing new was inserted (`inserted == 0` is `products' = products`). The
source loop terminates because `products` grows strictly while bounded by the
catalog; `fuel` makes the same bound explicit and `solve_cycles` supplies
enough of it. -/
def solveCyclesLoop (m : ItemManager) (max_tier : Tier) : Nat → Finset String → Option (Finset String)
  | 0, products => some products
  | fuel + 1, products =>
    match solve_cycle m products max_tier with
    | none => none
    | some next_cycle =>
      if products ∪ filterAllowed m max_tier next_cycle = products then some products
      else solveCyclesLoop m max_tier fuel (products ∪ filterAllowed m max_tier next_cycle)

/-- `Solver::solve_cycles` (solver.rs, lines 130-158): the first cycle runs on
`initial_inputs` (line 137); its admitted outputs seed `products`; if nothing
was admitted the loop breaks immediately with an empty result (line 150);
afterwards every cycle runs on `products` alone (line 154). -/
def solve_cycles (m : ItemManager) (initial_inputs : Finset String) (max_tier : Tier) : Option (Finset String) :=
  match solve_cycle m initial_inputs max_tier with
  | none => none
  | some next_cycle =>
    if filterAllowed m max_tier next_cycle = ∅ then some ∅
    else solveCyclesLoop m max_tier (m.items.length + 1) (filterAllowed m max_tier next_cycle)

/-- `Planet` (system.rs, lines 49-53), with resources reduced to item ids:
`Resource.density` is an `f32` the solver never reads, and
`Planet::collect_resources` keeps only the item identities. -/
structure Planet where
  label : String
  resources : List String
deriving DecidableEq, Repr

/-- `Planet::collect_resources` (system.rs, lines 92-94). -/
def Planet.collect_resources (p : Planet) : Finset String := p.resources.toFinset

/-- `Solution` (solver.rs, lines 204-208). -/
structure Solution where
  planet : Planet
  products : Finset String
deriving DecidableEq

/-- `FactorySolution` (solver.rs, lines 226-230). -/
structure FactorySolution where
  planets : List Solution
  products : Finset String
deriving DecidableEq

/-- `Simulation` (solver.rs, lines 198-202). -/
structure Simulation where
  planet_solutions : List Solution
  factory_solutions : List FactorySolution
deriving DecidableEq

/-- `Builder` (solver.rs, lines 9-15). -/
structure Builder where
  use_factory_planet : Option Bool
  max_planets : Option Nat
  production_max_tier : Option Tier
  factory_max_tier : Option Tier
deriving DecidableEq, Repr

/-- `Solver` (solver.rs, lines 75-81). -/
structure Solver where
  production_max_tier : Tier
  factory_max_tier : Tier
  use_factory_planet : Bool
  max_planets : Nat
deriving DecidableEq, Repr

/-- `Builder::build` (solver.rs, lines 50-72). The source computes
`max_planets - 1` on `usize` when the factory planet is enabled; with
`max_planets = 0` that subtraction underflows (a panic in debug builds),
modeled as `none`. -/
def Builder.build (b : Builder) : Option Solver :=
  let use_factory_planet := b.use_factory_planet.getD true
  let max_planets0 := b.max_planets.getD 6
  match (if use_factory_planet then
           if max_planets0 = 0 then none else some (max_planets0 - 1)
         else some max_planets0) with
  | none => none
  | some max_planets =>
    some { production_max_tier := b.production_max_tier.getD (if use_factory_planet then Tier.P1 else Tier.P4),
           factory_max_tier := b.factory_max_tier.getD Tier.P4,
           use_factory_planet := use_factory_planet,
           max_planets := max_planets }

/-- The per-planet loop of `Solver::solve` (solver.rs, lines 94-104): one
`Solution` per planet, in order, seeded from the planet's resources at the
production-stage tier ceiling. -/
def collectSolutions (m : ItemManager) (max_tier : Tier) : List Planet → Option (List Solution)
  | [] => some []
  | planet :: rest =>
    match solve_cycles m planet.collect_resources max_tier, collectSolutions m max_tier rest with
    | some products, some sols => some ({ planet := planet, products := products } :: sols)
    | _, _ => none

/-- The combined input set of a planet subset: the `flat_map` of member
products collected into a `HashSet` (solver.rs, lines 113-116). -/
def unionProducts (planet_set : List Solution) : Finset String :=
  planet_set.foldr (fun sol acc => sol.products ∪ acc) ∅

/-- The body of the factory loop of `Solver::solve` (solver.rs, lines
107-124), mapped over a list of planet subsets: one `FactorySolution` per
subset, holding the subset and the closure of its combined products at
the factory-stage tier ceiling. -/
def collectFactorySolutions (m : ItemManager) (max_tier : Tier) : List (List Solution) → Option (List FactorySolution)
  | [] => some []
  | planet_set :: rest =>
    match solve_cycles m (unionProducts planet_set) max_tier, collectFactorySolutions m max_tier rest with
    | some products, some fss => some ({ planets := planet_set, products := products } :: fss)
    | _, _ => none

/-- The factory stage of `Solver::solve` (solver.rs, lines 106-125):
`itertools::combinations(k)` enumerates the unordered size-`k` subsets of the
planet solutions (as order-preserving sublists), and each subset yields one
`FactorySolution`. -/
def searchFactorySolutions (m : ItemManager) (max_tier : Tier) (k : Nat) (sols : List Solution) : Option (List FactorySolution) :=
  collectFactorySolutions m max_tier (List.sublistsLen k sols)

/-- `Solver::solve` (solver.rs, lines 88-128). -/
def Solver.solve (s : Solver) (planets : List Planet) (m : ItemManager) : Option Simulation :=
  match collectSolutions m s.production_max_tier planets with
  | none => none
  | some planet_solutions =>
    if s.use_factory_planet then
      match searchFactorySolutions m s.factory_max_tier s.max_planets planet_solutions with
      | none => none
      | some factory_solutions => some { planet_solutions := planet_solutions, factory_solutions := factory_solutions }
    else some { planet_solutions := planet_solutions, factory_solutions := [] }

/-- Well-formedness of a catalog: every item's recipe inputs resolve, i.e.
`Item::from_raw` cannot fail. This is the "all item references are assumed
resolved" invariant the spec states for the engine. -/
def ItemManager.wellFormed (m : ItemManager) : Prop :=
  ∀ it ∈ m.items, (Item.from_raw m it).isSome = true

instance (m : ItemManager) : Decidable m.wellFormed :=
  inferInstanceAs (Decidable (∀ it ∈ m.items, (Item.from_raw m it).isSome = true))

/-- One producibility step at tier ceiling `max_tier` from available set `S`:
the tier-admitted outputs of one cycle over `S`. This composition of
`filterAllowed` and `cycleOutputs` is the body of the `solve_cycles` loop. -/
def step (m : ItemManager) (max_tier : Tier) (S : Finset String) : Finset String :=
  filterAllowed m max_tier (cycleOutputs m S max_tier)

/-- All item ids of the catalog. -/
def allItems (m : ItemManager) : Finset String :=
  (m.items.map (fun it => it.id)).toFinset

/-- Modelled from the spec: the closure procedure exactly as §4.1 words it,
for comparison with the source's `solve_cycles`. Step 4 of the spec recomputes
the available set as `initial_items ∪ produced` before every repeat; each
cycle admits consumers (tier above R0 and at most `max_tier`) whose full
recipe is satisfied by that available set. The iteration count bounds the
fixed point exactly as the catalog size bounds the source loop. -/
def computeClosureSpecLoop (m : ItemManager) (initial : Finset String) (max_tier : Tier) : Nat → Finset String → Finset String
  | 0, produced => produced
  | fuel + 1, produced =>
    computeClosureSpecLoop m initial max_tier fuel
      (produced ∪ step m max_tier (initial ∪ produced))

/-- Modelled from the spec: `compute_closure(initial_items, catalog, max_tier)`
per §4.1, with availability `initial_items ∪ produced` in every cycle. -/
def computeClosureSpec (m : ItemManager) (initial : Finset String) (max_tier : Tier) : Finset String :=
  computeClosureSpecLoop m initial max_tier (m.items.length + 1) ∅

/-- Example catalog of the spec's concrete scenario (§8): `ore` (R0, no
recipe), `bar` (P1, recipe 2 ore), `plate` (P2, recipe 1 bar). -/
def scenarioCatalog : ItemManager := ItemManager.new
  [ { id := "ore", label := "Ore", tier := .R0, production := none, is_p4_input := false },
    { id := "bar", label := "Bar", tier := .P1,
      production := some { quantity := 1, inputs := [("ore", 2)] }, is_p4_input := false },
    { id := "plate", label := "Plate", tier := .P2,
      production := some { quantity := 1, inputs := [("bar", 1)] }, is_p4_input := false } ]

/-- Catalog exercising a recipe that mixes a raw input with a produced one:
`ore` (R0, no recipe), `bar` (P1, recipe 1 ore), `widget` (P2, recipe
1 ore + 1 bar). -/
def mixedCatalog : ItemManager := ItemManager.new
  [ { id := "ore", label := "Ore", tier := .R0, production := none, is_p4_input := false },
    { id := "bar", label := "Bar", tier := .P1,
      production := some { quantity := 1, inputs := [("ore", 1)] }, is_p4_input := false },
    { id := "widget", label := "Widget", tier := .P2,
      production := some { quantity := 1, inputs := [("ore", 1), ("bar", 1)] }, is_p4_input := false } ]

/-- Catalog with a dangling recipe reference: `broken` consumes `ore` together
with `ghost`, an id absent from the catalog. -/
def danglingCatalog : ItemManager := ItemManager.new
  [ { id := "ore", label := "Ore", tier := .R0, production := none, is_p4_input := false },
    { id := "broken", label := "Broken", tier := .P1,
      production := some { quantity := 1, inputs := [("ore", 1), ("ghost", 1)] }, is_p4_input := false } ]

/-- Example planet carrying the scenario's raw resource. -/
def samplePlanet : Planet := { label := "a", resources := ["ore"] }

/-- Example per-planet solution list for the factory search. -/
def sampleSolutions : List Solution := [{ planet := samplePlanet, products := {"bar"} }]

theorem mem_cycleOutputs {m : ItemManager} {inputs : Finset String} {mt : Tier} {id : String} :
    id ∈ cycleOutputs m inputs mt ↔
      (∃ it ∈ m.items, (∃ inp ∈ inputs, it.consumes inp = true) ∧ it.id = id) ∧
      ∃ product production, m.get id = some product ∧ product.production = some production ∧
        product.tier ≤ mt ∧ production.can_be_made_using inputs = true := by
  unfold cycleOutputs cycleCandidates
  simp only [List.mem_toFinset, List.mem_filter, List.mem_map, decide_eq_true_eq]
  constructor
  · rintro ⟨⟨it, ⟨hit, hcons⟩, hid⟩, hf⟩
    refine ⟨⟨it, hit, hcons, hid⟩, ?_⟩
    split at hf
    · rename_i product hg
      rw [Bool.and_eq_true, decide_eq_true_eq] at hf
      obtain ⟨ht, hcan⟩ := hf
      split at hcan
      · rename_i production hp
        exact ⟨product, production, hg, hp, ht, hcan⟩
      · cases hcan
    · cases hf
  · rintro ⟨⟨it, hit, hcons, hid⟩, product, production, hg, hp, htier, hcan⟩
    refine ⟨⟨it, ⟨hit, hcons⟩, hid⟩, ?_⟩
    simp only [hg, hp, Bool.and_eq_true, decide_eq_true_eq]
    exact ⟨htier, hcan⟩

theorem can_be_made_using_mono {p : Production} {S T : Finset String} (hST : S ⊆ T)
    (h : p.can_be_made_using S = true) : p.can_be_made_using T = true := by
  simp only [Production.can_be_made_using, List.all_eq_true, decide_eq_true_eq] at h ⊢
  exact fun input hin => hST (h input hin)

theorem cycleOutputs_mono {m : ItemManager} {S T : Finset String} {ta tb : Tier}
    (hST : S ⊆ T) (htier : ta ≤ tb) : cycleOutputs m S ta ⊆ cycleOutputs m T tb := by
  intro id hid
  rw [mem_cycleOutputs] at hid ⊢
  obtain ⟨⟨it, hit, ⟨inp, hinp, hcons⟩, hid'⟩, product, production, hg, hp, ht, hcan⟩ := hid
  exact ⟨⟨it, hit, ⟨inp, hST hinp, hcons⟩, hid'⟩,
    product, production, hg, hp, Tier.le_trans ht htier, can_be_made_using_mono hST hcan⟩

theorem filterAllowed_subset {m : ItemManager} {mt : Tier} {S : Finset String} :
    filterAllowed m mt S ⊆ S := Finset.filter_subset _ _

theorem mem_filterAllowed {m : ItemManager} {mt : Tier} {S : Finset String} {id : String} :
    id ∈ filterAllowed m mt S ↔ id ∈ S ∧ Tier.R0 < m.tierOf id ∧ m.tierOf id ≤ mt := by
  simp [filterAllowed]

theorem step_mono {m : ItemManager} {S T : Finset String} {ta tb : Tier}
    (hST : S ⊆ T) (htier : ta ≤ tb) : step m ta S ⊆ step m tb T := by
  intro id hid
  rw [step, mem_filterAllowed] at hid ⊢
  exact ⟨cycleOutputs_mono hST htier hid.1, hid.2.1, Tier.le_trans hid.2.2 htier⟩

theorem cycleOutputs_empty {m : ItemManager} {mt : Tier} :
    cycleOutputs m (∅ : Finset String) mt = ∅ := by
  ext id
  rw [mem_cycleOutputs]
  simp

theorem step_empty {m : ItemManager} {mt : Tier} : step m mt (∅ : Finset String) = ∅ := by
  rw [step, cycleOutputs_empty]
  rfl

theorem cycleOutputs_subset_allItems {m : ItemManager} {S : Finset String} {mt : Tier} :
    cycleOutputs m S mt ⊆ allItems m := by
  intro id hid
  rw [mem_cycleOutputs] at hid
  obtain ⟨⟨it, hit, _, hid'⟩, _⟩ := hid
  rw [allItems, List.mem_toFinset, List.mem_map]
  exact ⟨it, hit, hid'⟩

theorem step_subset_allItems {m : ItemManager} {S : Finset String} {mt : Tier} :
    step m mt S ⊆ allItems m :=
  Finset.Subset.trans filterAllowed_subset cycleOutputs_subset_allItems

theorem Tier.le_refl (a : Tier) : a ≤ a := Nat.le.refl

theorem allItems_card_le (m : ItemManager) : (allItems m).card ≤ m.items.length := by
  rw [allItems]
  exact Nat.le_trans (List.toFinset_card_le _) (Nat.le_of_eq (List.length_map _ _))

theorem solve_cycle_some {m : ItemManager} {S : Finset String} {mt : Tier} {nc : Finset String}
    (h : solve_cycle m S mt = some nc) : nc = cycleOutputs m S mt := by
  unfold solve_cycle at h
  split at h
  · cases h
  · exact (Option.some_inj.mp h).symm

theorem solveCyclesLoop_succ {m : ItemManager} {mt : Tier} {fuel : Nat} {P : Finset String} :
    solveCyclesLoop m mt (fuel + 1) P =
      match solve_cycle m P mt with
      | none => none
      | some next_cycle =>
        if P ∪ filterAllowed m mt next_cycle = P then some P
        else solveCyclesLoop m mt fuel (P ∪ filterAllowed m mt next_cycle) := rfl

theorem solveCyclesLoop_subset {m : ItemManager} {mt : Tier} :
    ∀ {fuel : Nat} {P R : Finset String}, solveCyclesLoop m mt fuel P = some R → P ⊆ R := by
  intro fuel
  induction fuel with
  | zero =>
    intro P R h
    cases h
    exact Finset.Subset.refl P
  | succ fuel ih =>
    intro P R h
    rw [solveCyclesLoop_succ] at h
    split at h
    · cases h
    · split at h
      · cases h
        exact Finset.Subset.refl _
      · exact Finset.Subset.trans Finset.subset_union_left (ih h)

theorem solveCyclesLoop_least {m : ItemManager} {mt : Tier} (Q : Finset String)
    (hQ : step m mt Q ⊆ Q) :
    ∀ {fuel : Nat} {P R : Finset String}, P ⊆ Q → solveCyclesLoop m mt fuel P = some R → R ⊆ Q := by
  intro fuel
  induction fuel with
  | zero =>
    intro P R hPQ h
    cases h
    exact hPQ
  | succ fuel ih =>
    intro P R hPQ h
    rw [solveCyclesLoop_succ] at h
    split at h
    · cases h
    · rename_i nc hnc
      have hnc' := solve_cycle_some hnc
      subst hnc'
      split at h
      · cases h
        exact hPQ
      · refine ih (Finset.union_subset hPQ ?_) h
        exact Finset.Subset.trans (step_mono hPQ (Tier.le_refl mt)) hQ

theorem solveCyclesLoop_closed {m : ItemManager} {mt : Tier} :
    ∀ {fuel : Nat} {P R : Finset String}, P ⊆ allItems m →
      (allItems m).card < fuel + P.card →
      solveCyclesLoop m mt fuel P = some R → step m mt R ⊆ R := by
  intro fuel
  induction fuel with
  | zero =>
    intro P R hsub hcard h
    have := Finset.card_le_card hsub
    omega
  | succ fuel ih =>
    intro P R hsub hcard h
    rw [solveCyclesLoop_succ] at h
    split at h
    · cases h
    · rename_i nc hnc
      have hnc' := solve_cycle_some hnc
      subst hnc'
      split at h
      · rename_i heq
        cases h
        exact Finset.union_eq_left.mp heq
      · rename_i hne
        have hss : P ⊂ P ∪ step m mt P :=
          Finset.ssubset_iff_subset_ne.mpr ⟨Finset.subset_union_left, fun hcontra => hne hcontra.symm⟩
        have hcard' := Finset.card_lt_card hss
        refine ih (Finset.union_subset hsub step_subset_allItems) (by omega) h

theorem solveCyclesLoop_invariant {m : ItemManager} {mt : Tier} (Pr : String → Prop)
    (hstep : ∀ S id, id ∈ step m mt S → Pr id) :
    ∀ {fuel : Nat} {P R : Finset String}, (∀ id ∈ P, Pr id) →
      solveCyclesLoop m mt fuel P = some R → ∀ id ∈ R, Pr id := by
  intro fuel
  induction fuel with
  | zero =>
    intro P R hP h
    cases h
    exact hP
  | succ fuel ih =>
    intro P R hP h
    rw [solveCyclesLoop_succ] at h
    split at h
    · cases h
    · rename_i nc hnc
      have hnc' := solve_cycle_some hnc
      subst hnc'
      split at h
      · cases h
        exact hP
      · refine ih ?_ h
        intro id hid
        rcases Finset.mem_union.mp hid with hid' | hid'
        · exact hP id hid'
        · exact hstep P id hid'

theorem solve_cycles_start_subset {m : ItemManager} {init : Finset String} {mt : Tier}
    {R : Finset String} (h : solve_cycles m init mt = some R) : step m mt init ⊆ R := by
  unfold solve_cycles at h
  split at h
  · cases h
  · rename_i nc hnc
    have hnc' := solve_cycle_some hnc
    subst hnc'
    split at h
    · rename_i hempty
      cases h
      show filterAllowed m mt (cycleOutputs m init mt) ⊆ (∅ : Finset String)
      rw [hempty]
    · exact solveCyclesLoop_subset h

theorem solve_cycles_closed {m : ItemManager} {init : Finset String} {mt : Tier}
    {R : Finset String} (h : solve_cycles m init mt = some R) : step m mt R ⊆ R := by
  unfold solve_cycles at h
  split at h
  · cases h
  · rename_i nc hnc
    have hnc' := solve_cycle_some hnc
    subst hnc'
    split at h
    · cases h
      rw [step_empty]
    · refine solveCyclesLoop_closed step_subset_allItems ?_ h
      have := allItems_card_le m
      omega

theorem solve_cycles_least {m : ItemManager} {init : Finset String} {mt : Tier}
    {R : Finset String} (h : solve_cycles m init mt = some R) (Q : Finset String)
    (hstart : step m mt init ⊆ Q) (hclosed : step m mt Q ⊆ Q) : R ⊆ Q := by
  unfold solve_cycles at h
  split at h
  · cases h
  · rename_i nc hnc
    have hnc' := solve_cycle_some hnc
    subst hnc'
    split at h
    · cases h
      exact Finset.empty_subset Q
    · exact solveCyclesLoop_least Q hclosed hstart h

theorem solve_cycles_invariant {m : ItemManager} {init : Finset String} {mt : Tier}
    {R : Finset String} (h : solve_cycles m init mt = some R) (Pr : String → Prop)
    (hstep : ∀ S id, id ∈ step m mt S → Pr id) : ∀ id ∈ R, Pr id := by
  unfold solve_cycles at h
  split at h
  · cases h
  · rename_i nc hnc
    have hnc' := solve_cycle_some hnc
    subst hnc'
    split at h
    · cases h
      intro id hid
      cases Finset.not_mem_empty id hid
    · refine solveCyclesLoop_invariant Pr hstep ?_ h
      intro id hid
      exact hstep init id hid

theorem findRaw_isSome_of_mem {m : ItemManager} {it : RawItem} (h : it ∈ m.items) :
    (m.findRaw it.id).isSome = true := by
  rw [ItemManager.findRaw, List.find?_isSome]
  exact ⟨it, h, by simp⟩

theorem findRaw_mem {m : ItemManager} {id : String} {raw : RawItem}
    (h : m.findRaw id = some raw) : raw ∈ m.items :=
  List.mem_of_find?_eq_some h

theorem get_isSome_of_wellFormed {m : ItemManager} (hwf : m.wellFormed) {id : String}
    (h : ∃ it ∈ m.items, it.id = id) : (m.get id).isSome = true := by
  obtain ⟨it, hit, hid⟩ := h
  rw [ItemManager.get]
  subst hid
  cases hfind : m.findRaw it.id with
  | none =>
    have := findRaw_isSome_of_mem hit
    rw [hfind] at this
    cases this
  | some raw => exact hwf raw (findRaw_mem hfind)

theorem resolveAll_isSome {m : ItemManager} :
    ∀ {l : List String}, (∀ id ∈ l, (m.get id).isSome = true) →
      (resolveAll m l).isSome = true := by
  intro l
  induction l with
  | nil => intro _; rfl
  | cons id rest ih =>
    intro h
    rw [resolveAll]
    cases hget : m.get id with
    | none =>
      have := h id (List.mem_cons_self id rest)
      rw [hget] at this
      cases this
    | some item =>
      cases hrest : resolveAll m rest with
      | none =>
        have := ih (fun id' hid' => h id' (List.mem_cons_of_mem id hid'))
        rw [hrest] at this
        cases this
      | some items => rfl

theorem get_products_isSome_of_wellFormed {m : ItemManager} (hwf : m.wellFormed)
    (inp : String) : (m.get_products inp).isSome = true := by
  rw [ItemManager.get_products]
  refine resolveAll_isSome ?_
  intro id hid
  refine get_isSome_of_wellFormed hwf ?_
  rw [ItemManager.usedIn] at hid
  obtain ⟨it, hit, hid'⟩ := List.mem_map.mp hid
  exact ⟨it, (List.mem_filter.mp hit).1, hid'⟩

theorem cyclePanics_false_of_wellFormed {m : ItemManager} (hwf : m.wellFormed)
    (S : Finset String) : cyclePanics m S = false := by
  rw [cyclePanics, decide_eq_false_iff_not]
  rintro ⟨inp, _, hnone⟩
  have := get_products_isSome_of_wellFormed hwf inp
  rw [hnone] at this
  cases this

theorem solve_cycle_of_wellFormed {m : ItemManager} (hwf : m.wellFormed)
    (S : Finset String) (mt : Tier) : solve_cycle m S mt = some (cycleOutputs m S mt) := by
  simp [solve_cycle, cyclePanics_false_of_wellFormed hwf]

theorem solveCyclesLoop_isSome_of_wellFormed {m : ItemManager} (hwf : m.wellFormed)
    {mt : Tier} : ∀ (fuel : Nat) (P : Finset String), (solveCyclesLoop m mt fuel P).isSome = true := by
  intro fuel
  induction fuel with
  | zero => intro P; rfl
  | succ fuel ih =>
    intro P
    rw [solveCyclesLoop_succ, solve_cycle_of_wellFormed hwf]
    split
    · rename_i heq
      cases heq
    · rename_i nc heq
      cases heq
      split
      · rfl
      · exact ih _

theorem solve_cycles_isSome_of_wellFormed {m : ItemManager} (hwf : m.wellFormed)
    (init : Finset String) (mt : Tier) : (solve_cycles m init mt).isSome = true := by
  rw [solve_cycles, solve_cycle_of_wellFormed hwf]
  split
  · rename_i heq
    cases heq
  · rename_i nc heq
    cases heq
    split
    · rfl
    · exact solveCyclesLoop_isSome_of_wellFormed hwf _ _

theorem collectSolutions_isSome_of_wellFormed {m : ItemManager} (hwf : m.wellFormed)
    (mt : Tier) : ∀ (planets : List Planet), (collectSolutions m mt planets).isSome = true := by
  intro planets
  induction planets with
  | nil => rfl
  | cons planet rest ih =>
    rw [collectSolutions]
    cases hsc : solve_cycles m planet.collect_resources mt with
    | none =>
      have := solve_cycles_isSome_of_wellFormed hwf planet.collect_resources mt
      rw [hsc] at this
      cases this
    | some products =>
      cases hrest : collectSolutions m mt rest with
      | none => rw [hrest] at ih; cases ih
      | some sols => rfl

theorem collectFactorySolutions_isSome_of_wellFormed {m : ItemManager} (hwf : m.wellFormed)
    (mt : Tier) : ∀ (subsets : List (List Solution)),
      (collectFactorySolutions m mt subsets).isSome = true := by
  intro subsets
  induction subsets with
  | nil => rfl
  | cons planet_set rest ih =>
    rw [collectFactorySolutions]
    cases hsc : solve_cycles m (unionProducts planet_set) mt with
    | none =>
      have := solve_cycles_isSome_of_wellFormed hwf (unionProducts planet_set) mt
      rw [hsc] at this
      cases this
    | some products =>
      cases hrest : collectFactorySolutions m mt rest with
      | none => rw [hrest] at ih; cases ih
      | some fss => rfl

theorem collectFactorySolutions_forall₂ {m : ItemManager} {mt : Tier} :
    ∀ {subsets : List (List Solution)} {fss : List FactorySolution},
      collectFactorySolutions m mt subsets = some fss →
      List.Forall₂ (fun subset fs => fs.planets = subset ∧
        solve_cycles m (unionProducts subset) mt = some fs.products) subsets fss := by
  intro subsets
  induction subsets with
  | nil =>
    intro fss h
    cases h
    exact List.Forall₂.nil
  | cons planet_set rest ih =>
    intro fss h
    rw [collectFactorySolutions] at h
    cases hsc : solve_cycles m (unionProducts planet_set) mt with
    | none => rw [hsc] at h; cases h
    | some products =>
      rw [hsc] at h
      cases hrest : collectFactorySolutions m mt rest with
      | none => rw [hrest] at h; cases h
      | some fss' =>
        rw [hrest] at h
        cases h
        exact List.Forall₂.cons ⟨rfl, hsc⟩ (ih hrest)

theorem solve_isSome_of_wellFormed {m : ItemManager} (hwf : m.wellFormed)
    (s : Solver) (planets : List Planet) : (s.solve planets m).isSome = true := by
  rw [Solver.solve]
  cases hcs : collectSolutions m s.production_max_tier planets with
  | none =>
    have h2 := collectSolutions_isSome_of_wellFormed hwf s.production_max_tier planets
    rw [hcs] at h2
    cases h2
  | some planet_solutions =>
    cases hu : s.use_factory_planet with
    | false => simp [hu]
    | true =>
      simp only [hu, if_true]
      cases hfs : searchFactorySolutions m s.factory_max_tier s.max_planets planet_solutions with
      | none =>
        have h3 : collectFactorySolutions m s.factory_max_tier
            (List.sublistsLen s.max_planets planet_solutions) = none := hfs
        have h2 := collectFactorySolutions_isSome_of_wellFormed hwf s.factory_max_tier
          (List.sublistsLen s.max_planets planet_solutions)
        rw [h3] at h2
        cases h2
      | some factory_solutions => rfl

/-- C1, counterexample: the claim states that every cycle tests recipe
satisfaction against `initial_items ∪ produced`. On the catalog where
`widget` needs `ore` (raw, in the initial set) together with `bar`
(produced in the first cycle), `solve_cycles` returns only `{bar}`: after
the first cycle the available set is `produced` alone (solver.rs, line
154), so `ore` is no longer available and `widget` is never deemed
producible, while the spec's procedure (availability
`initial_items ∪ produced`) yields `{bar, widget}`. -/
theorem claim1_counterexample :
    solve_cycles mixedCatalog {"ore"} Tier.P4 = some {"bar"} ∧
    computeClosureSpec mixedCatalog {"ore"} Tier.P4 = {"bar", "widget"} ∧
    "widget" ∉ ({"bar"} : Finset String) := by decide

/-- C1 (amended): each cycle deems a consumer producible exactly when all of
its recipe inputs are members of the currently-available set, but only the
first cycle's available set is `initial_items`; every later cycle recomputes
the available set as `produced` alone (not `initial_items ∪ produced`).
Formally, the result of `solve_cycles` is exactly the least set that contains
the tier-admitted outputs of one cycle over `initial_items` and is closed
under tier-admitted cycles over itself. -/
theorem claim1_theorem (m : ItemManager) (init : Finset String) (mt : Tier) (R : Finset String)
    (h : solve_cycles m init mt = some R) :
    step m mt init ⊆ R ∧ step m mt R ⊆ R ∧
      ∀ Q : Finset String, step m mt init ⊆ Q → step m mt Q ⊆ Q → R ⊆ Q :=
  ⟨solve_cycles_start_subset h, solve_cycles_closed h,
    fun Q h1 h2 => solve_cycles_least h Q h1 h2⟩

/-- Witness for C1's amended theorem at the mixed catalog. -/
theorem claim1_witness :
    step mixedCatalog Tier.P4 {"ore"} ⊆ {"bar"} ∧
    step mixedCatalog Tier.P4 {"bar"} ⊆ {"bar"} ∧
      ∀ Q : Finset String, step mixedCatalog Tier.P4 {"ore"} ⊆ Q →
        step mixedCatalog Tier.P4 Q ⊆ Q → ({"bar"} : Finset String) ⊆ Q :=
  claim1_theorem mixedCatalog {"ore"} Tier.P4 {"bar"} (by decide)

/-- C2, counterexample: a production-recipe input naming an absent item id
(`ghost`) is not an error at catalog load time — `ItemManager::new` performs
no recipe resolution — and closure computation is not total on such a
catalog: resolving the consumer `broken` during `solve` hits the
`get(id).unwrap()` panic inside `ItemManager::get_products`. -/
theorem claim2_counterexample :
    danglingCatalog = ItemManager.new danglingCatalog.items ∧
    danglingCatalog.findRaw "ghost" = none ∧
    danglingCatalog.get "broken" = none ∧
    solve_cycles danglingCatalog {"ore"} Tier.P4 = none ∧
    Solver.solve { production_max_tier := Tier.P4, factory_max_tier := Tier.P4,
                   use_factory_planet := false, max_planets := 6 }
      [{ label := "p", resources := ["ore"] }] danglingCatalog = none := by decide

/-- C2 (amended): catalog construction does not validate recipe input ids; a
dangling input id is detected lazily and panics during closure computation.
When every recipe input id is present in the catalog (`wellFormed`), closure
computation and factory search are total: `solve` always returns a result. -/
theorem claim2_theorem (m : ItemManager) (hwf : m.wellFormed) (s : Solver)
    (planets : List Planet) : ∃ sim, s.solve planets m = some sim :=
  Option.isSome_iff_exists.mp (solve_isSome_of_wellFormed hwf s planets)

/-- Witness for C2's amended theorem at the scenario catalog. -/
theorem claim2_witness :
    ∃ sim, Solver.solve { production_max_tier := Tier.P4, factory_max_tier := Tier.P4,
                          use_factory_planet := false, max_planets := 6 }
      [samplePlanet] scenarioCatalog = some sim :=
  claim2_theorem scenarioCatalog (by decide)
    { production_max_tier := Tier.P4, factory_max_tier := Tier.P4,
      use_factory_planet := false, max_planets := 6 } [samplePlanet]

/-- C3, counterexample: the produced set is not disjoint from the initial
set. With `initial = {ore, bar}`, the first cycle rediscovers `bar` (its
recipe input `ore` is available) and `products.insert(bar)` succeeds
(solver.rs, line 145), so `bar` is a member of both the initial set and the
returned produced set. -/
theorem claim3_counterexample :
    solve_cycles mixedCatalog {"ore", "bar"} Tier.P1 = some {"bar"} ∧
    "bar" ∈ ({"ore", "bar"} : Finset String) ∧
    "bar" ∈ ({"bar"} : Finset String) := by decide

/-- C3 (amended): an item already present in `initial_items` is added to
`produced` when its recipe is satisfied by available items; the produced set
is not in general disjoint from the initial set. What does hold is that
every member of the produced set has a production recipe in the catalog, so
recipe-less initial items (raw resources) never appear in `produced`. -/
theorem claim3_theorem (m : ItemManager) (init : Finset String) (mt : Tier) (R : Finset String)
    (h : solve_cycles m init mt = some R) :
    ∀ id ∈ R, ∃ item, m.get id = some item ∧ item.production.isSome = true := by
  refine solve_cycles_invariant h
    (fun id => ∃ item, m.get id = some item ∧ item.production.isSome = true) ?_
  intro S id hid
  have hmem := (mem_filterAllowed.mp hid).1
  rw [mem_cycleOutputs] at hmem
  obtain ⟨_, product, production, hg, hp, _, _⟩ := hmem
  exact ⟨product, hg, by rw [hp]; rfl⟩

/-- Witness for C3's amended theorem: the produced item `bar` carries a
recipe. -/
theorem claim3_witness :
    ∃ item, mixedCatalog.get "bar" = some item ∧ item.production.isSome = true :=
  claim3_theorem mixedCatalog {"ore", "bar"} Tier.P1 {"bar"} (by decide) "bar" (by decide)

/-- C4: over `n` per-location solutions with subset size `k`, the factory
search returns exactly `C(n, k)` FactorySolution records, one per unordered
size-`k` subset, each holding the subset together with the closure (at the
factory-stage tier ceiling) of the union of the subset members' produced
sets; when `k` exceeds `n` it yields the empty list, not an error. -/
theorem claim4_theorem (m : ItemManager) (hwf : m.wellFormed) (mt : Tier) (k : Nat)
    (sols : List Solution) :
    ∃ fss, searchFactorySolutions m mt k sols = some fss ∧
      fss.length = Nat.choose sols.length k ∧
      List.Forall₂ (fun subset fs => fs.planets = subset ∧
        solve_cycles m (unionProducts subset) mt = some fs.products)
        (List.sublistsLen k sols) fss ∧
      (sols.length < k → fss = []) := by
  obtain ⟨fss, hfss⟩ := Option.isSome_iff_exists.mp
    (collectFactorySolutions_isSome_of_wellFormed hwf mt (List.sublistsLen k sols))
  refine ⟨fss, hfss, ?_, collectFactorySolutions_forall₂ hfss, ?_⟩
  · have hlen := (collectFactorySolutions_forall₂ hfss).length_eq
    rw [← hlen]
    exact List.length_sublistsLen k sols
  · intro hk
    rw [List.sublistsLen_of_length_lt hk] at hfss
    simp only [collectFactorySolutions] at hfss
    exact (Option.some_inj.mp hfss).symm

/-- Witness for C4 at the scenario catalog with one location and k = 1. -/
theorem claim4_witness :
    ∃ fss, searchFactorySolutions scenarioCatalog Tier.P4 1 sampleSolutions = some fss ∧
      fss.length = Nat.choose sampleSolutions.length 1 ∧
      List.Forall₂ (fun subset fs => fs.planets = subset ∧
        solve_cycles scenarioCatalog (unionProducts subset) Tier.P4 = some fs.products)
        (List.sublistsLen 1 sampleSolutions) fss ∧
      (sampleSolutions.length < 1 → fss = []) :=
  claim4_theorem scenarioCatalog (by decide) Tier.P4 1 sampleSolutions

/-- C5: the spec's concrete scenario. On the catalog with `ore` (R0, no
recipe), `bar` (P1, recipe 2 ore), `plate` (P2, recipe 1 bar): the closure
of `{ore}` at ceiling P1 is `{bar}`; the closure of `{ore}` at ceiling P4 is
`{bar, plate}`; the closure of the empty set at ceiling P4 is empty. -/
theorem claim5_theorem :
    solve_cycles scenarioCatalog {"ore"} Tier.P1 = some {"bar"} ∧
    solve_cycles scenarioCatalog {"ore"} Tier.P4 = some {"bar", "plate"} ∧
    solve_cycles scenarioCatalog (∅ : Finset String) Tier.P4 = some (∅ : Finset String) := by
  decide

/-- C6: tier monotonicity. For tier ceilings `ta < tb`, the closure computed
at ceiling `ta` is a subset of the closure computed at ceiling `tb` (same
initial set and catalog). -/
theorem claim6_theorem (m : ItemManager) (init : Finset String) (ta tb : Tier) (hlt : ta < tb)
    (Ra Rb : Finset String) (ha : solve_cycles m init ta = some Ra)
    (hb : solve_cycles m init tb = some Rb) : Ra ⊆ Rb := by
  have hle : ta ≤ tb := Tier.le_of_lt hlt
  refine solve_cycles_least ha Rb ?_ ?_
  · exact Finset.Subset.trans (step_mono (Finset.Subset.refl init) hle)
      (solve_cycles_start_subset hb)
  · exact Finset.Subset.trans (step_mono (Finset.Subset.refl Rb) hle)
      (solve_cycles_closed hb)

/-- Witness for C6 at the scenario catalog with ceilings P1 < P4. -/
theorem claim6_witness : ({"bar"} : Finset String) ⊆ {"bar", "plate"} :=
  claim6_theorem scenarioCatalog {"ore"} Tier.P1 Tier.P4 (by decide)
    {"bar"} {"bar", "plate"} (by decide) (by decide)

/-- C7, counterexample: the closure is not a fixed point under re-seeding
with its own output. On the mixed catalog, the closure of `{ore}` at P4 is
`{bar}`, but the closure of `{ore} ∪ {bar}` at P4 is `{bar, widget}`: in the
second run `ore` and `bar` are simultaneously available in the first cycle,
so `widget` is produced, while the first run loses `ore` from availability
after its first cycle. -/
theorem claim7_counterexample :
    solve_cycles mixedCatalog {"ore"} Tier.P4 = some {"bar"} ∧
    solve_cycles mixedCatalog ({"ore"} ∪ {"bar"}) Tier.P4 = some {"bar", "widget"} ∧
    ({"bar", "widget"} : Finset String) ≠ {"bar"} := by decide

/-- C7 (amended): only one inclusion of the claimed fixed-point equation
holds: the closure of `initial` is contained in the closure of
`initial ∪ closure(initial)` (the closure is monotone in its seed), but the
latter can be strictly larger, because cycles after the first test
availability against `produced` alone. -/
theorem claim7_theorem (m : ItemManager) (init : Finset String) (mt : Tier)
    (R R' : Finset String) (h : solve_cycles m init mt = some R)
    (h' : solve_cycles m (init ∪ R) mt = some R') : R ⊆ R' := by
  refine solve_cycles_least h R' ?_ (solve_cycles_closed h')
  exact Finset.Subset.trans (step_mono Finset.subset_union_left (Tier.le_refl mt))
    (solve_cycles_start_subset h')

/-- Witness for C7's amended theorem at the scenario catalog. -/
theorem claim7_witness : ({"bar", "plate"} : Finset String) ⊆ {"bar", "plate"} :=
  claim7_theorem scenarioCatalog {"ore"} Tier.P4 {"bar", "plate"} {"bar", "plate"}
    (by decide) (by decide)

/-- C8: R0 exclusion. Every member of a returned closure has tier strictly
above R0 (the admission test at solver.rs line 143), regardless of recipe
satisfaction. -/
theorem claim8_theorem (m : ItemManager) (init : Finset String) (mt : Tier) (R : Finset String)
    (h : solve_cycles m init mt = some R) : ∀ id ∈ R, Tier.R0 < m.tierOf id := by
  refine solve_cycles_invariant h (fun id => Tier.R0 < m.tierOf id) ?_
  intro S id hid
  exact (mem_filterAllowed.mp hid).2.1

/-- Witness for C8 at the scenario catalog. -/
theorem claim8_witness : Tier.R0 < scenarioCatalog.tierOf "bar" :=
  claim8_theorem scenarioCatalog {"ore"} Tier.P1 {"bar"} (by decide) "bar" (by decide)

/-- C9: configuration resolution. `use_factory_planet` defaults to true;
`max_planets` defaults to 6, and when the factory stage is enabled the
stored subset size is `max_planets − 1`; `production_max_tier` defaults to
P1 when the factory stage is enabled and to P4 otherwise; `factory_max_tier`
defaults to P4; explicitly supplied values are used unchanged. Stated for
every builder whose resolved `max_planets` is positive when the factory
stage is enabled (the underflow case is claim C10). -/
theorem claim9_theorem (b : Builder)
    (h : b.use_factory_planet.getD true = true → 0 < b.max_planets.getD 6) :
    b.build = some
      { production_max_tier :=
          b.production_max_tier.getD (if b.use_factory_planet.getD true then Tier.P1 else Tier.P4),
        factory_max_tier := b.factory_max_tier.getD Tier.P4,
        use_factory_planet := b.use_factory_planet.getD true,
        max_planets :=
          if b.use_factory_planet.getD true then b.max_planets.getD 6 - 1
          else b.max_planets.getD 6 } := by
  rw [Builder.build]
  cases hufp : b.use_factory_planet.getD true with
  | false => simp [hufp]
  | true =>
    have hpos := h hufp
    have hne : ¬ b.max_planets.getD 6 = 0 := Nat.pos_iff_ne_zero.mp hpos
    simp [hufp, hne]

/-- Witness for C9: the all-default builder resolves to the factory stage
enabled, subset size 5, production ceiling P1 and factory ceiling P4. -/
theorem claim9_witness :
    Builder.build { use_factory_planet := none, max_planets := none,
                    production_max_tier := none, factory_max_tier := none } =
      some { production_max_tier := Tier.P1, factory_max_tier := Tier.P4,
             use_factory_planet := true, max_planets := 5 } :=
  claim9_theorem
    { use_factory_planet := none, max_planets := none,
      production_max_tier := none, factory_max_tier := none } (by decide)

/-- C10: with the factory stage enabled and `max_planets = 0`, the
subset-size computation `max_planets - 1` underflows the unsigned integer
type (a panic in debug builds, modeled as failure) instead of being rejected
as a configuration error. -/
theorem claim10_theorem :
    Builder.build { use_factory_planet := some true, max_planets := some 0,
                    production_max_tier := none, factory_max_tier := none } = none := by decide

end EvePI
